import Mathlib

/-!
Verification of the suitter messaging core: the Move conversation ledger
(`sources/messaging.move`) and the TypeScript Seal/Walrus encryption pipeline
(`messageEncryption` utilities).  The Move module is embedded with explicit
state passing (`Except` for `assert!`/abort); the TypeScript pipeline is
embedded over an environment of external collaborators (SHA-256, TextEncoder,
Seal encrypt/decrypt, Walrus upload/download), with the code's own control
flow, comparisons and string manipulation modelled concretely.
-/

namespace Suitter

/-! ## Move ledger embedding (sources/messaging.move) -/

abbrev Addr := Nat

abbrev ConvId := Nat

/-- Error codes of `suitter::messaging`:
`ENotParticipant = 1`, `EMessageEmpty = 3`, `ECannotMessageSelf = 4`,
`EInvalidBlobId = 5`. -/
inductive MsgError where
  | ENotParticipant
  | EMessageEmpty
  | ECannotMessageSelf
  | EInvalidBlobId
deriving DecidableEq, Repr

/-- The spec's abstract `EmptyReference` failure covers the two concrete
empty-argument abort codes of `send_message`. -/
def MsgError.isEmptyReference : MsgError → Bool
  | .EInvalidBlobId => true
  | .EMessageEmpty => true
  | _ => false

/-- Move `Message` struct: sender, Walrus blob id of the encrypted content,
hash of the original content, timestamp, read flag, optional media blob id. -/
structure Message where
  sender : Addr
  encrypted_content_blob_id : String
  content_hash : List Nat
  timestamp_ms : Nat
  is_read : Bool
  media_blob_id : Option String
deriving DecidableEq, Repr

/-- Move `Conversation` struct (the `UID` is tracked separately as the
`ConvId` under which the registry stores the conversation). -/
structure Conversation where
  participant1 : Addr
  participant2 : Addr
  messages : List Message
  last_message_timestamp_ms : Nat
deriving DecidableEq, Repr

/-- A `sui::table::Table` keyed by addresses, as an association list
(first binding wins, mirroring unique-key tables). -/
abbrev ATable (β : Type) := List (Addr × β)

def tcontains {β : Type} (t : ATable β) (k : Addr) : Bool :=
  t.any (fun p => p.1 == k)

def tborrow {β : Type} (t : ATable β) (k : Addr) : Option β :=
  (t.find? (fun p => p.1 == k)).map Prod.snd

def tadd {β : Type} (t : ATable β) (k : Addr) (v : β) : ATable β :=
  (k, v) :: t

/-- Mutation through `table::borrow_mut`: rewrite the binding at key `k`. -/
def tupdate {β : Type} : ATable β → Addr → (β → β) → ATable β
  | [], _, _ => []
  | p :: ps, k, f =>
    (if p.1 == k then (p.1, f p.2) else p) :: tupdate ps k f

/-- The `ConversationRegistry`: `Table<address, Table<address, ID>>`. -/
abbrev Registry := ATable (ATable ConvId)

/-- Helper `conversation_exists`: check the pair in both orderings. -/
def conversation_exists (reg : Registry) (user1 user2 : Addr) : Bool :=
  (match tborrow reg user1 with
   | some inner => tcontains inner user2
   | none => false) ||
  (match tborrow reg user2 with
   | some inner => tcontains inner user1
   | none => false)

/-- One direction of the nested-table lookup. -/
def lookupDir (reg : Registry) (a b : Addr) : Option ConvId :=
  match tborrow reg a with
  | some inner => tborrow inner b
  | none => none

/-- Helper `get_conversation_id_helper`: try `(user1, user2)`, then
`(user2, user1)`. -/
def get_conversation_id_helper (reg : Registry) (user1 user2 : Addr) :
    Option ConvId :=
  match lookupDir reg user1 user2 with
  | some i => some i
  | none => lookupDir reg user2 user1

/-- Public `get_conversation_id`. -/
def get_conversation_id (reg : Registry) (user1 user2 : Addr) : Option ConvId :=
  get_conversation_id_helper reg user1 user2

/-- Entry `start_conversation`.  Aborts with `ECannotMessageSelf` on a
self-conversation; returns early (no mutation) when the pair already has a
conversation; otherwise creates the conversation under the fresh id supplied
by `object::new` and registers it in both directions.  The returned `Option`
is `some` exactly when a conversation was created and shared. -/
def start_conversation (reg : Registry) (sender other_user : Addr)
    (freshId : ConvId) (now : Nat) :
    Except MsgError (Registry × Option (ConvId × Conversation)) :=
  if sender == other_user then .error .ECannotMessageSelf
  else if conversation_exists reg sender other_user then .ok (reg, none)
  else
    let conv : Conversation :=
      { participant1 := sender, participant2 := other_user
        messages := [], last_message_timestamp_ms := now }
    let reg1 := if tcontains reg sender then reg else tadd reg sender []
    let reg2 := tupdate reg1 sender (fun t => tadd t other_user freshId)
    let reg3 := if tcontains reg2 other_user then reg2
                else tadd reg2 other_user []
    let reg4 := tupdate reg3 other_user (fun t => tadd t sender freshId)
    .ok (reg4, some (freshId, conv))

/-- Byte length of a Move `std::string::String` (UTF-8 bytes). -/
def strByteLen (s : String) : Nat := s.utf8ByteSize

/-- Entry `send_message`: assert sender is a participant, assert the blob id
and content hash are non-empty, then push the new message and refresh
`last_message_timestamp_ms`. -/
def send_message (conv : Conversation) (sender : Addr)
    (encrypted_content_blob_id : String) (content_hash : List Nat)
    (now : Nat) : Except MsgError Conversation :=
  if !(sender == conv.participant1 || sender == conv.participant2) then
    .error .ENotParticipant
  else if !(strByteLen encrypted_content_blob_id > 0) then
    .error .EInvalidBlobId
  else if !(content_hash.length > 0) then
    .error .EMessageEmpty
  else
    let message : Message :=
      { sender := sender
        encrypted_content_blob_id := encrypted_content_blob_id
        content_hash := content_hash
        timestamp_ms := now
        is_read := false
        media_blob_id := none }
    .ok { conv with
          messages := conv.messages ++ [message]
          last_message_timestamp_ms := now }

/-- Entry `send_message_with_media`: like `send_message` but also asserts the
media blob id is non-empty (checked after the content blob id and before the
content hash) and stores it as `option::some`. -/
def send_message_with_media (conv : Conversation) (sender : Addr)
    (encrypted_content_blob_id : String) (content_hash : List Nat)
    (media_blob_id : String) (now : Nat) : Except MsgError Conversation :=
  if !(sender == conv.participant1 || sender == conv.participant2) then
    .error .ENotParticipant
  else if !(strByteLen encrypted_content_blob_id > 0) then
    .error .EInvalidBlobId
  else if !(strByteLen media_blob_id > 0) then
    .error .EInvalidBlobId
  else if !(content_hash.length > 0) then
    .error .EMessageEmpty
  else
    let message : Message :=
      { sender := sender
        encrypted_content_blob_id := encrypted_content_blob_id
        content_hash := content_hash
        timestamp_ms := now
        is_read := false
        media_blob_id := some media_blob_id }
    .ok { conv with
          messages := conv.messages ++ [message]
          last_message_timestamp_ms := now }

/-- In-place update of the element at index `i` (`vector::borrow_mut`). -/
def modifyAt (ms : List Message) (i : Nat) (f : Message → Message) :
    List Message :=
  match ms, i with
  | [], _ => []
  | m :: rest, 0 => f m :: rest
  | m :: rest, n + 1 => m :: modifyAt rest n f

/-- Recursive helper `mark_messages_as_read_helper`: walk indices
`index, index+1, …, end_index - 1`, setting `is_read := true` on each message
whose sender is not the reader. -/
def mark_messages_as_read_helper (messages : List Message) (reader : Addr)
    (index end_index : Nat) : List Message :=
  if index ≥ end_index then messages
  else
    let messages' := modifyAt messages index
      (fun m => if m.sender != reader then { m with is_read := true } else m)
    mark_messages_as_read_helper messages' reader (index + 1) end_index
termination_by end_index - index
decreasing_by omega

/-- Entry `mark_messages_as_read`: assert the reader is a participant, clamp
`up_to_index` to the sequence length, and mark `[0, end_index)`. -/
def mark_messages_as_read (conv : Conversation) (reader : Addr)
    (up_to_index : Nat) : Except MsgError Conversation :=
  if !(reader == conv.participant1 || reader == conv.participant2) then
    .error .ENotParticipant
  else
    let messages_length := conv.messages.length
    let end_index :=
      if up_to_index ≥ messages_length then messages_length
      else up_to_index + 1
    .ok { conv with
          messages :=
            mark_messages_as_read_helper conv.messages reader 0 end_index }

/-- Public `is_participant`. -/
def is_participant (conv : Conversation) (user : Addr) : Bool :=
  conv.participant1 == user || conv.participant2 == user

/-! ## TypeScript encryption pipeline embedding (messageEncryption utilities)

Byte payloads are `List Nat`.  The external collaborators — `crypto.subtle`
SHA-256, `TextEncoder`/`TextDecoder`, the Seal client's `encrypt`/`decrypt`,
and Walrus upload/download — are an environment of opaque functions; a `fetch`
that is not `ok` and a rejected `decrypt` are the `none` cases.  Everything
the TypeScript file computes itself (identity derivation, hex encoding, hash
comparison, session-key and transaction-byte construction, control flow) is
modelled concretely. -/

abbrev Bytes := List Nat

/-- Session key object built by `createSessionKey`: exposes `getPackageId`
and `getIdentity`. -/
structure SessionKey where
  packageId : String
  identity : String
deriving DecidableEq, Repr

/-- External collaborators of the pipeline. -/
structure SealEnv where
  hashDigest : Bytes → Bytes
  textEncode : String → Bytes
  textDecode : Bytes → String
  sealEncrypt : Nat → String → String → Bytes → Bytes
  sealDecrypt : Bytes → SessionKey → Bytes → Option Bytes
  walrusUpload : Bytes → String
  walrusDownload : String → Option Bytes

/-- Package id constant imported from `useContract`. -/
def PACKAGE_ID : String :=
  "0x2039f72d58be7166b210e54145ecff010ea50ddca6043db743ea8a25e7542d39"

/-- Hex digit character, lowercase as produced by `Number.toString(16)`. -/
def hexDigit (n : Nat) : Char :=
  if n < 10 then Char.ofNat (48 + n) else Char.ofNat (87 + n)

/-- JavaScript `b.toString(16)`. -/
def natToHex (n : Nat) : String :=
  if n < 16 then String.singleton (hexDigit n)
  else natToHex (n / 16) ++ String.singleton (hexDigit (n % 16))
decreasing_by exact Nat.div_lt_self (by omega) (by omega)

/-- JavaScript `b.toString(16).padStart(2, '0')`. -/
def byteToHexPadded (n : Nat) : String :=
  let s := natToHex n
  if s.length < 2 then "0" ++ s else s

/-- Hex rendering of a byte array (`map(..).join('')`). -/
def bytesToHex (bs : Bytes) : String :=
  String.join (bs.map byteToHexPadded)

/-- Insertion step for the default-comparator `Array.prototype.sort()`. -/
def insertStr (s : String) : List String → List String
  | [] => [s]
  | t :: ts => if s ≤ t then s :: t :: ts else t :: insertStr s ts

/-- The default-comparator `participants.sort()`: sorts the strings into
lexicographic order. -/
def sortStrings : List String → List String
  | [] => []
  | s :: ss => insertStr s (sortStrings ss)

/-- JavaScript `array.join('-')`. -/
def joinDash : List String → String
  | [] => ""
  | [s] => s
  | s :: t :: ts => s ++ "-" ++ joinDash (t :: ts)

/-- TypeScript `createConversationIdentity`: sort the participants, build
`` `${conversationId}-${sorted.join('-')}` ``, encode it, render as hex. -/
def createConversationIdentity (env : SealEnv) (conversationId : String)
    (participants : List String) : String :=
  let sortedParticipants := sortStrings participants
  let identityData := conversationId ++ "-" ++ joinDash sortedParticipants
  bytesToHex (env.textEncode identityData)

/-- TypeScript `createSessionKey`: a stub object carrying the package id and
the identity. -/
def createSessionKey (identity : String) : SessionKey :=
  { packageId := PACKAGE_ID, identity := identity }

/-- TypeScript `createDecryptTransaction`: 64 bytes cycling through the
encoding of `` `decrypt-${identity}` ``. -/
def createDecryptTransaction (env : SealEnv) (identity : String) : Bytes :=
  let txData := env.textEncode ("decrypt-" ++ identity)
  (List.range 64).map (fun i => (txData.getD (i % txData.length) 0))

/-- TypeScript `encryptAndUploadMessage`: hash the encoded plaintext, derive
the conversation identity, Seal-encrypt with threshold 2, upload the
ciphertext to Walrus, and return the blob id together with the content
hash. -/
def encryptAndUploadMessage (env : SealEnv) (messageContent : String)
    (conversationId : String) (participants : List String) :
    String × Bytes :=
  let messageBytes := env.textEncode messageContent
  let contentHash := env.hashDigest messageBytes
  let identity := createConversationIdentity env conversationId participants
  let encryptedBytes := env.sealEncrypt 2 PACKAGE_ID identity messageBytes
  let blobId := env.walrusUpload encryptedBytes
  (blobId, contentHash)

/-- TypeScript `decryptMessage`: download the ciphertext from Walrus,
re-derive the identity, default the session key and transaction bytes when
not supplied, Seal-decrypt, and decode the plaintext.  There is no digest
argument and no verification step. -/
def decryptMessage (env : SealEnv) (blobId : String)
    (conversationId : String) (participants : List String)
    (sessionKey : Option SessionKey) (txBytes : Option Bytes) :
    Except String String :=
  match env.walrusDownload blobId with
  | none => .error "Failed to download encrypted message from Walrus"
  | some encryptedBytes =>
    let identity := createConversationIdentity env conversationId participants
    let finalSessionKey := sessionKey.getD (createSessionKey identity)
    let finalTxBytes := txBytes.getD (createDecryptTransaction env identity)
    match env.sealDecrypt encryptedBytes finalSessionKey finalTxBytes with
    | none => .error "Failed to decrypt message"
    | some decryptedData => .ok (env.textDecode decryptedData)

/-- Byte-wise comparison loop of `verifyMessageHash` (run after the lengths
are known to agree): return `false` at the first differing byte. -/
def hashBytesEqual : Bytes → Bytes → Bool
  | a :: as, b :: bs => if a != b then false else hashBytesEqual as bs
  | _, _ => true

/-- TypeScript `verifyMessageHash`: recompute the SHA-256 of the encoded
content, compare lengths first, then compare every byte. -/
def verifyMessageHash (env : SealEnv) (messageContent : String)
    (expectedHash : Bytes) : Bool :=
  let actualHash := env.hashDigest (env.textEncode messageContent)
  if actualHash.length != expectedHash.length then false
  else hashBytesEqual actualHash expectedHash

/-! ## Supporting lemmas -/

theorem hashBytesEqual_iff (a b : Bytes) (hlen : a.length = b.length) :
    hashBytesEqual a b = true ↔ a = b := by
  induction a generalizing b with
  | nil =>
    cases b with
    | nil => simp [hashBytesEqual]
    | cons y ys => simp at hlen
  | cons x xs ih =>
    cases b with
    | nil => simp at hlen
    | cons y ys =>
      simp only [List.length_cons, Nat.add_right_cancel_iff] at hlen
      by_cases hxy : x = y
      · subst hxy
        simpa [hashBytesEqual] using ih ys hlen
      · simp [hashBytesEqual, hxy]

theorem sortStrings_pair (A B : String) :
    sortStrings [A, B] = sortStrings [B, A] := by
  by_cases hab : A ≤ B <;> by_cases hba : B ≤ A <;>
    simp [sortStrings, insertStr, hab, hba]
  · exact ⟨le_antisymm hab hba, le_antisymm hba hab⟩
  · exact absurd (le_total A B) (by simp [hab, hba])

theorem tborrow_tadd_self {β : Type} (t : ATable β) (k : Addr) (v : β) :
    tborrow (tadd t k v) k = some v := by
  simp [tborrow, tadd, List.find?_cons_of_pos]

theorem tborrow_tadd_ne {β : Type} (t : ATable β) (k k' : Addr) (v : β)
    (h : k' ≠ k) :
    tborrow (tadd t k v) k' = tborrow t k' := by
  have : (k == k') = false := by simp [Ne.symm h]
  simp [tborrow, tadd, List.find?_cons_of_neg, this]

theorem tcontains_tadd_self {β : Type} (t : ATable β) (k : Addr) (v : β) :
    tcontains (tadd t k v) k = true := by
  simp [tcontains, tadd]

theorem tborrow_tupdate_self {β : Type} (t : ATable β) (k : Addr)
    (f : β → β) :
    tborrow (tupdate t k f) k = (tborrow t k).map f := by
  induction t with
  | nil => rfl
  | cons p ps ih =>
    unfold tborrow at ih ⊢
    rw [tupdate]
    cases h : (p.1 == k) with
    | true =>
      rw [if_pos rfl]
      simp only [List.find?_cons, h]
      rfl
    | false =>
      rw [if_neg (by simp)]
      simp only [List.find?_cons, h]
      exact ih

theorem tborrow_tupdate_ne {β : Type} (t : ATable β) (k k' : Addr)
    (f : β → β) (h : k' ≠ k) :
    tborrow (tupdate t k f) k' = tborrow t k' := by
  induction t with
  | nil => rfl
  | cons p ps ih =>
    unfold tborrow at ih ⊢
    rw [tupdate]
    cases hk : (p.1 == k) with
    | true =>
      have hp : p.1 = k := by simpa using hk
      have hk' : (p.1 == k') = false := by simp [hp, Ne.symm h]
      rw [if_pos rfl]
      simp only [List.find?_cons, hk']
      exact ih
    | false =>
      rw [if_neg (by simp)]
      cases hk' : (p.1 == k') with
      | true => simp only [List.find?_cons, hk']
      | false =>
        simp only [List.find?_cons, hk']
        exact ih

theorem tcontains_eq_isSome {β : Type} (t : ATable β) (k : Addr) :
    tcontains t k = (tborrow t k).isSome := by
  induction t with
  | nil => rfl
  | cons p ps ih =>
    unfold tcontains tborrow at ih ⊢
    rw [List.any_cons]
    cases h : (p.1 == k) with
    | true =>
      simp only [List.find?_cons, h]
      rfl
    | false =>
      simp only [List.find?_cons, h, Bool.false_or]
      exact ih

/-- The registry mutation performed by the creating branch of
`start_conversation`: ensure both outer entries exist, then add the
conversation id under `(sender, other)` and `(other, sender)`. -/
def registerPair (reg : Registry) (sender other : Addr) (id : ConvId) :
    Registry :=
  let reg1 := if tcontains reg sender then reg else tadd reg sender []
  let reg2 := tupdate reg1 sender (fun t => tadd t other id)
  let reg3 := if tcontains reg2 other then reg2 else tadd reg2 other []
  tupdate reg3 other (fun t => tadd t sender id)

theorem start_conversation_create (reg : Registry) (A B : Addr)
    (id : ConvId) (now : Nat) (hne : (A == B) = false)
    (habs : conversation_exists reg A B = false) :
    start_conversation reg A B id now =
      .ok (registerPair reg A B id,
        some (id, ⟨A, B, [], now⟩)) := by
  rw [start_conversation]
  simp only [hne, Bool.false_eq_true, if_false, habs, registerPair]

theorem tborrow_ensure_self (reg : Registry) (A : Addr) :
    tborrow (if tcontains reg A then reg else tadd reg A []) A =
      some ((tborrow reg A).getD []) := by
  cases hc : tcontains reg A with
  | true =>
    rw [if_pos rfl]
    rw [tcontains_eq_isSome] at hc
    cases hb : tborrow reg A with
    | none => rw [hb] at hc; simp at hc
    | some t => simp [hb]
  | false =>
    rw [if_neg (by simp), tborrow_tadd_self]
    rw [tcontains_eq_isSome] at hc
    cases hb : tborrow reg A with
    | none => rfl
    | some t => rw [hb] at hc; simp at hc

theorem tborrow_ensure_ne (reg : Registry) (A X : Addr) (h : X ≠ A) :
    tborrow (if tcontains reg A then reg else tadd reg A []) X =
      tborrow reg X := by
  cases hc : tcontains reg A with
  | true => rw [if_pos rfl]
  | false => rw [if_neg (by simp), tborrow_tadd_ne _ _ _ _ h]

theorem tborrow_registerPair_sender (reg : Registry) (A B : Addr)
    (id : ConvId) (hne : A ≠ B) :
    tborrow (registerPair reg A B id) A =
      some (tadd ((tborrow reg A).getD []) B id) := by
  unfold registerPair
  rw [tborrow_tupdate_ne _ _ _ _ hne, tborrow_ensure_ne _ _ _ hne,
    tborrow_tupdate_self, tborrow_ensure_self]
  rfl

theorem tborrow_registerPair_other (reg : Registry) (A B : Addr)
    (id : ConvId) (hne : A ≠ B) :
    tborrow (registerPair reg A B id) B =
      some ((tadd ((tborrow reg B).getD []) A id)) := by
  unfold registerPair
  rw [tborrow_tupdate_self, tborrow_ensure_self,
    tborrow_tupdate_ne _ _ _ _ (Ne.symm hne),
    tborrow_ensure_ne _ _ _ (Ne.symm hne)]
  rfl

/-! ## Claim theorems -/

/-- C9: for every identity `A`, `start_conversation` called with the other
user equal to the sender (a self-conversation attempt) aborts with
`ECannotMessageSelf` (the code's `InvalidParticipant`) and creates nothing:
no registry entry and no conversation object are produced. -/
theorem start_conversation_self_invalid (A : Addr) (reg : Registry)
    (freshId : ConvId) (now : Nat) :
    start_conversation reg A A freshId now = .error .ECannotMessageSelf := by
  simp [start_conversation]

/-- C5: `send_message` aborts with `ENotParticipant` whenever the sender is
neither participant (regardless of the other arguments), and — for a
participant sender — aborts with one of the two empty-reference codes
(`EInvalidBlobId` / `EMessageEmpty`) whenever the content blob id is empty or
the content hash is empty; an abort returns no updated conversation, so the
message sequence and `last_message_timestamp_ms` are left unchanged. -/
theorem send_message_failure_spec (conv : Conversation) (sender : Addr)
    (blobId : String) (contentHash : List Nat) (now : Nat) :
    (¬ (sender = conv.participant1 ∨ sender = conv.participant2) →
      send_message conv sender blobId contentHash now =
        .error .ENotParticipant) ∧
    ((sender = conv.participant1 ∨ sender = conv.participant2) →
      (strByteLen blobId = 0 ∨ contentHash.length = 0) →
      ∃ e, send_message conv sender blobId contentHash now = .error e ∧
        e.isEmptyReference = true) ∧
    (∀ e, send_message conv sender blobId contentHash now = .error e →
      ∀ conv', send_message conv sender blobId contentHash now ≠ .ok conv') := by
  refine ⟨?_, ?_, ?_⟩
  · intro hnp
    have h1 : (sender == conv.participant1) = false := by
      simp [beq_iff_eq]; intro h; exact hnp (Or.inl h)
    have h2 : (sender == conv.participant2) = false := by
      simp [beq_iff_eq]; intro h; exact hnp (Or.inr h)
    simp [send_message, h1, h2]
  · intro hp hempty
    have hpart : (sender == conv.participant1 || sender == conv.participant2)
        = true := by
      rcases hp with h | h <;> simp [h]
    by_cases hblob : strByteLen blobId = 0
    · exact ⟨.EInvalidBlobId, by simp [send_message, hpart, hblob], rfl⟩
    · have hhash : contentHash.length = 0 := by tauto
      refine ⟨.EMessageEmpty, ?_, rfl⟩
      simp [send_message, hpart, hblob, hhash]
  · intro e he conv' hok
    rw [he] at hok
    exact Except.noConfusion hok

/-- C8: `verifyMessageHash` returns `true` exactly when the recomputed digest
of the plaintext equals the expected digest in both length and content; any
length or byte difference yields `false`, so no partial or prefix match is
accepted. -/
theorem verifyMessageHash_exact_match (env : SealEnv) (content : String)
    (expectedHash : Bytes) :
    verifyMessageHash env content expectedHash = true ↔
      env.hashDigest (env.textEncode content) = expectedHash := by
  unfold verifyMessageHash
  by_cases hlen :
      (env.hashDigest (env.textEncode content)).length = expectedHash.length
  · simpa [hlen] using
      hashBytesEqual_iff (env.hashDigest (env.textEncode content))
        expectedHash hlen
  · simp only [hlen, bne_iff_ne, ne_eq, not_false_eq_true, if_true]
    constructor
    · intro h; exact absurd h (by simp)
    · intro h; exact absurd (congrArg List.length h) hlen

/-- A concrete conversation between addresses `10` and `11`, used to
instantiate the hypothesised theorems. -/
def convAB : Conversation :=
  { participant1 := 10, participant2 := 11
    messages := [], last_message_timestamp_ms := 0 }

/-- C5 witness: non-participant `12` is rejected, and an empty blob id from
participant `10` aborts with an empty-reference code. -/
theorem send_message_failure_spec_witness :
    (¬ ((12 : Addr) = convAB.participant1 ∨ (12 : Addr) = convAB.participant2)) ∧
    send_message convAB 12 "blob" [1] 5 = .error .ENotParticipant ∧
    ((10 : Addr) = convAB.participant1 ∨ (10 : Addr) = convAB.participant2) ∧
    (∃ e, send_message convAB 10 "" [1] 5 = .error e ∧
      e.isEmptyReference = true) := by
  refine ⟨by decide, ?_, by decide, ?_⟩
  · exact (send_message_failure_spec convAB 12 "blob" [1] 5).1 (by decide)
  · exact (send_message_failure_spec convAB 10 "" [1] 5).2.1 (by decide)
      (Or.inl (by decide))

/-- C10: `send_message_with_media` aborts with `EInvalidBlobId` whenever the
media blob id is empty — even when the content blob id (and the content hash)
are non-empty — returning no updated conversation; when all three arguments
are non-empty it appends a message whose `media_blob_id` is
`some mediaBlobId` and refreshes the timestamp. -/
theorem send_message_with_media_spec (conv : Conversation) (sender : Addr)
    (blobId : String) (contentHash : List Nat) (mediaBlobId : String)
    (now : Nat) :
    ((sender = conv.participant1 ∨ sender = conv.participant2) →
      strByteLen blobId > 0 → strByteLen mediaBlobId = 0 →
      send_message_with_media conv sender blobId contentHash mediaBlobId now =
        .error .EInvalidBlobId) ∧
    ((sender = conv.participant1 ∨ sender = conv.participant2) →
      strByteLen blobId > 0 → strByteLen mediaBlobId > 0 →
      contentHash.length > 0 →
      send_message_with_media conv sender blobId contentHash mediaBlobId now =
        .ok { conv with
              messages := conv.messages ++
                [{ sender := sender, encrypted_content_blob_id := blobId
                   content_hash := contentHash, timestamp_ms := now
                   is_read := false, media_blob_id := some mediaBlobId }]
              last_message_timestamp_ms := now }) := by
  constructor
  · intro hp hblob hmedia
    have hpart : (sender == conv.participant1 || sender == conv.participant2)
        = true := by rcases hp with h | h <;> simp [h]
    simp [send_message_with_media, hpart, hblob, hmedia]
  · intro hp hblob hmedia hhash
    have hpart : (sender == conv.participant1 || sender == conv.participant2)
        = true := by rcases hp with h | h <;> simp [h]
    simp [send_message_with_media, hpart, Nat.pos_iff_ne_zero.mp hblob,
      Nat.pos_iff_ne_zero.mp hmedia, Nat.pos_iff_ne_zero.mp hhash]

/-- C10 witness: participant `10`, non-empty content blob id and hash, empty
media blob id aborts; with a non-empty media blob id the message is appended
with `media_blob_id = some "m1"`. -/
theorem send_message_with_media_spec_witness :
    (((10 : Addr) = convAB.participant1 ∨ (10 : Addr) = convAB.participant2) ∧
      strByteLen "blob" > 0 ∧ strByteLen "" = 0 ∧
      send_message_with_media convAB 10 "blob" [1] "" 7 =
        .error .EInvalidBlobId) ∧
    (strByteLen "m1" > 0 ∧ List.length [1] > 0 ∧
      send_message_with_media convAB 10 "blob" [1] "m1" 7 =
        .ok { convAB with
              messages := convAB.messages ++
                [{ sender := 10, encrypted_content_blob_id := "blob"
                   content_hash := [1], timestamp_ms := 7
                   is_read := false, media_blob_id := some "m1" }]
              last_message_timestamp_ms := 7 }) := by
  refine ⟨⟨Or.inl (by decide), by decide, by decide, ?_⟩, by decide, by decide, ?_⟩
  · exact (send_message_with_media_spec convAB 10 "blob" [1] "" 7).1
      (Or.inl (by decide)) (by decide) (by decide)
  · exact (send_message_with_media_spec convAB 10 "blob" [1] "m1" 7).2
      (Or.inl (by decide)) (by decide) (by decide) (by decide)

/-- Arguments of one `send_message` call. -/
structure SendInput where
  sender : Addr
  blobId : String
  hash : List Nat
  ts : Nat
deriving DecidableEq, Repr

/-- The `Message` record that `send_message` appends for the given call. -/
def mkMessage (i : SendInput) : Message :=
  { sender := i.sender, encrypted_content_blob_id := i.blobId
    content_hash := i.hash, timestamp_ms := i.ts
    is_read := false, media_blob_id := none }

/-- Validity of one `send_message` call against a conversation: the sender is
a participant and both the blob id and the hash are non-empty. -/
def validInput (conv : Conversation) (i : SendInput) : Prop :=
  (i.sender = conv.participant1 ∨ i.sender = conv.participant2) ∧
    strByteLen i.blobId > 0 ∧ i.hash.length > 0

instance (conv : Conversation) (i : SendInput) :
    Decidable (validInput conv i) := by
  unfold validInput; infer_instance

/-- Sequencing of N `send_message` transactions. -/
def appendAll (conv : Conversation) : List SendInput →
    Except MsgError Conversation
  | [] => .ok conv
  | i :: is =>
    match send_message conv i.sender i.blobId i.hash i.ts with
    | .error e => .error e
    | .ok conv' => appendAll conv' is

theorem send_message_ok (conv : Conversation) (i : SendInput)
    (hv : validInput conv i) :
    send_message conv i.sender i.blobId i.hash i.ts =
      .ok { conv with
            messages := conv.messages ++ [mkMessage i]
            last_message_timestamp_ms := i.ts } := by
  obtain ⟨hp, hblob, hhash⟩ := hv
  have hpart : (i.sender == conv.participant1 ||
      i.sender == conv.participant2) = true := by
    rcases hp with h | h <;> simp [h]
  simp [send_message, mkMessage, hpart, Nat.pos_iff_ne_zero.mp hblob,
    Nat.pos_iff_ne_zero.mp hhash]

theorem appendAll_ok (inputs : List SendInput) (conv : Conversation)
    (hv : ∀ i ∈ inputs, validInput conv i) :
    appendAll conv inputs = .ok { conv with
      messages := conv.messages ++ inputs.map mkMessage
      last_message_timestamp_ms :=
        inputs.foldl (fun _ i => i.ts) conv.last_message_timestamp_ms } := by
  induction inputs generalizing conv with
  | nil => simp [appendAll]
  | cons i is ih =>
    have hi : validInput conv i := hv i (List.mem_cons_self i is)
    rw [appendAll, send_message_ok conv i hi]
    have hrest : ∀ j ∈ is,
        validInput { conv with
          messages := conv.messages ++ [mkMessage i]
          last_message_timestamp_ms := i.ts } j := by
      intro j hj
      exact hv j (List.mem_cons_of_mem i hj)
    refine (ih _ hrest).trans ?_
    simp [List.foldl_cons]

theorem foldl_ts_getLast (inputs : List SendInput) (hne : inputs ≠ [])
    (t0 : Nat) :
    inputs.foldl (fun _ i => i.ts) t0 = (inputs.getLast hne).ts := by
  induction inputs generalizing t0 with
  | nil => exact absurd rfl hne
  | cons i is ih =>
    cases is with
    | nil => simp [List.foldl_cons, List.getLast]
    | cons j js =>
      rw [List.foldl_cons, ih (by simp) i.ts,
        List.getLast_cons (by simp : j :: js ≠ [])]

/-- C6: after N valid `send_message` calls on a fresh conversation with
participants `{A, B}`, the message sequence has length N, holds exactly the
appended messages in append order (the k-th call's message sits at index k,
earlier messages unchanged), and `last_message_timestamp_ms` equals the
timestamp of the last appended message — the new message's index is always
the previous length, i.e. the next index. -/
theorem send_message_append_sequence (A B : Addr) (t0 : Nat)
    (inputs : List SendInput)
    (hv : ∀ i ∈ inputs, (i.sender = A ∨ i.sender = B) ∧
      strByteLen i.blobId > 0 ∧ i.hash.length > 0)
    (hne : inputs ≠ []) :
    ∃ conv',
      appendAll
        { participant1 := A, participant2 := B
          messages := [], last_message_timestamp_ms := t0 } inputs =
        .ok conv' ∧
      conv'.messages = inputs.map mkMessage ∧
      conv'.messages.length = inputs.length ∧
      (∀ k, k < inputs.length →
        conv'.messages.get? k = (inputs.get? k).map mkMessage) ∧
      conv'.last_message_timestamp_ms = (inputs.getLast hne).ts ∧
      conv'.participant1 = A ∧ conv'.participant2 = B := by
  refine ⟨_, appendAll_ok inputs _ (fun i hi => hv i hi), ?_, ?_, ?_, ?_, rfl, rfl⟩
  · simp
  · simp
  · intro k hk
    simp [List.get?_map]
  · exact foldl_ts_getLast inputs hne t0

/-- C6 witness: two sends into a fresh conversation between `10` and `11`
give a two-message sequence in order with the last timestamp `200`. -/
theorem send_message_append_sequence_witness :
    (∀ i ∈ [SendInput.mk 10 "blob1" [1] 100, SendInput.mk 11 "blob2" [2] 200],
      (i.sender = 10 ∨ i.sender = 11) ∧
        strByteLen i.blobId > 0 ∧ i.hash.length > 0) ∧
    (∃ conv',
      appendAll
        { participant1 := 10, participant2 := 11
          messages := [], last_message_timestamp_ms := 0 }
        [SendInput.mk 10 "blob1" [1] 100, SendInput.mk 11 "blob2" [2] 200] =
        .ok conv' ∧
      conv'.messages =
        [SendInput.mk 10 "blob1" [1] 100,
         SendInput.mk 11 "blob2" [2] 200].map mkMessage ∧
      conv'.messages.length = 2 ∧
      (∀ k, k < 2 →
        conv'.messages.get? k =
          ([SendInput.mk 10 "blob1" [1] 100,
            SendInput.mk 11 "blob2" [2] 200].get? k).map mkMessage) ∧
      conv'.last_message_timestamp_ms =
        ([SendInput.mk 10 "blob1" [1] 100,
          SendInput.mk 11 "blob2" [2] 200].getLast (by decide)).ts ∧
      conv'.participant1 = 10 ∧ conv'.participant2 = 11) := by
  refine ⟨by decide, ?_⟩
  exact send_message_append_sequence 10 11 0
    [SendInput.mk 10 "blob1" [1] 100, SendInput.mk 11 "blob2" [2] 200]
    (by decide) (by decide)

/-- Per-message effect of one step of `mark_messages_as_read_helper`. -/
def markIf (reader : Addr) (m : Message) : Message :=
  if m.sender != reader then { m with is_read := true } else m

theorem markIf_idem (reader : Addr) (m : Message) :
    markIf reader (markIf reader m) = markIf reader m := by
  unfold markIf
  by_cases h : m.sender = reader <;> simp [h]

theorem markIf_comp (reader : Addr) :
    markIf reader ∘ markIf reader = markIf reader :=
  funext (markIf_idem reader)

theorem modifyAt_get? (ms : List Message) (i : Nat) (f : Message → Message)
    (j : Nat) :
    (modifyAt ms i f).get? j =
      if j = i then (ms.get? j).map f else ms.get? j := by
  induction ms generalizing i j with
  | nil => simp [modifyAt]
  | cons m rest ih =>
    cases i with
    | zero =>
      cases j with
      | zero => simp [modifyAt]
      | succ j' => simp [modifyAt]
    | succ i' =>
      cases j with
      | zero => simp [modifyAt]
      | succ j' => simpa [modifyAt] using ih i' j'

theorem modifyAt_length (ms : List Message) (i : Nat) (f : Message → Message) :
    (modifyAt ms i f).length = ms.length := by
  induction ms generalizing i with
  | nil => simp [modifyAt]
  | cons m rest ih =>
    cases i with
    | zero => simp [modifyAt]
    | succ i' => simpa [modifyAt] using ih i'

theorem helper_get?_aux (n : Nat) :
    ∀ (ms : List Message) (reader : Addr) (i e : Nat), e - i = n →
      ∀ j, (mark_messages_as_read_helper ms reader i e).get? j =
        if i ≤ j ∧ j < e then (ms.get? j).map (markIf reader)
        else ms.get? j := by
  induction n with
  | zero =>
    intro ms reader i e he j
    have h : i ≥ e := by omega
    rw [mark_messages_as_read_helper, if_pos h]
    have hc : ¬ (i ≤ j ∧ j < e) := by omega
    simp [hc]
  | succ n ih =>
    intro ms reader i e he j
    have h : ¬ i ≥ e := by omega
    rw [mark_messages_as_read_helper, if_neg h]
    show (mark_messages_as_read_helper
      (modifyAt ms i (markIf reader)) reader (i + 1) e).get? j = _
    rw [ih _ reader (i + 1) e (by omega) j, modifyAt_get?]
    by_cases hji : j = i
    · subst hji
      have h1 : ¬ (j + 1 ≤ j ∧ j < e) := by omega
      have h2 : j ≤ j ∧ j < e := ⟨Nat.le_refl j, by omega⟩
      simp [h1, h2]
    · have hiff : (i + 1 ≤ j ∧ j < e) ↔ (i ≤ j ∧ j < e) := by omega
      simp [hji, hiff]

theorem helper_get? (ms : List Message) (reader : Addr) (i e j : Nat) :
    (mark_messages_as_read_helper ms reader i e).get? j =
      if i ≤ j ∧ j < e then (ms.get? j).map (markIf reader) else ms.get? j :=
  helper_get?_aux (e - i) ms reader i e rfl j

theorem helper_length_aux (n : Nat) :
    ∀ (ms : List Message) (reader : Addr) (i e : Nat), e - i = n →
      (mark_messages_as_read_helper ms reader i e).length = ms.length := by
  induction n with
  | zero =>
    intro ms reader i e he
    have h : i ≥ e := by omega
    rw [mark_messages_as_read_helper, if_pos h]
  | succ n ih =>
    intro ms reader i e he
    have h : ¬ i ≥ e := by omega
    rw [mark_messages_as_read_helper, if_neg h]
    show (mark_messages_as_read_helper
      (modifyAt ms i (markIf reader)) reader (i + 1) e).length = ms.length
    rw [ih _ reader (i + 1) e (by omega), modifyAt_length]

theorem helper_length (ms : List Message) (reader : Addr) (i e : Nat) :
    (mark_messages_as_read_helper ms reader i e).length = ms.length :=
  helper_length_aux (e - i) ms reader i e rfl

/-- C4: for a participant reader, `mark_messages_as_read` never aborts
(out-of-range `up_to_index` is clamped to the sequence length), sets
`is_read := true` for exactly the messages at indices
`0 … min(up_to_index, lastIndex)` whose sender differs from the reader,
leaves the reader's own messages and every other field (and the
participants and `last_message_timestamp_ms`) untouched, and is idempotent:
repeating the call with the same or a smaller `up_to_index` changes
nothing. -/
theorem mark_messages_as_read_spec (conv : Conversation) (reader : Addr)
    (up_to : Nat)
    (hp : reader = conv.participant1 ∨ reader = conv.participant2) :
    ∃ conv', mark_messages_as_read conv reader up_to = .ok conv' ∧
      conv'.participant1 = conv.participant1 ∧
      conv'.participant2 = conv.participant2 ∧
      conv'.last_message_timestamp_ms = conv.last_message_timestamp_ms ∧
      conv'.messages.length = conv.messages.length ∧
      (∀ j m, conv.messages.get? j = some m →
        conv'.messages.get? j = some
          { m with is_read :=
              if j < min (up_to + 1) conv.messages.length ∧ m.sender ≠ reader
              then true else m.is_read }) ∧
      (∀ up_to', up_to' ≤ up_to →
        mark_messages_as_read conv' reader up_to' = .ok conv') := by
  have hpart : (reader == conv.participant1 || reader == conv.participant2)
      = true := by rcases hp with h | h <;> simp [h]
  have hemin : (if up_to ≥ conv.messages.length then conv.messages.length
      else up_to + 1) = min (up_to + 1) conv.messages.length := by
    split <;> omega
  refine Exists.intro
    { conv with
      messages :=
        mark_messages_as_read_helper conv.messages reader 0
          (min (up_to + 1) conv.messages.length) }
    ⟨?_, rfl, rfl, rfl, helper_length _ _ _ _, ?_, ?_⟩
  · simp [mark_messages_as_read, hpart, hemin]
  · intro j m hm
    obtain ⟨msender, mblob, mhash, mts, mread, mmedia⟩ := m
    rw [helper_get?]
    by_cases hj : j < min (up_to + 1) conv.messages.length
    · have hcond : 0 ≤ j ∧ j < min (up_to + 1) conv.messages.length :=
        ⟨Nat.zero_le j, hj⟩
      rw [if_pos hcond, hm]
      by_cases hs : msender = reader
      · simp [markIf, hs, hj]
      · simp [markIf, hs, hj]
    · have hcond : ¬ (0 ≤ j ∧ j < min (up_to + 1) conv.messages.length) := by
        omega
      rw [if_neg hcond, hm]
      have hcond2 : ¬ (j < min (up_to + 1) conv.messages.length ∧
          msender ≠ reader) := by tauto
      rw [if_neg hcond2]
  · intro up_to' hle
    have hlen' : (mark_messages_as_read_helper conv.messages reader 0
        (min (up_to + 1) conv.messages.length)).length =
        conv.messages.length := helper_length _ _ _ _
    have hemin' : (if up_to' ≥ conv.messages.length then conv.messages.length
        else up_to' + 1) = min (up_to' + 1) conv.messages.length := by
      split <;> omega
    have hms : mark_messages_as_read_helper
        (mark_messages_as_read_helper conv.messages reader 0
          (min (up_to + 1) conv.messages.length)) reader 0
        (min (up_to' + 1) conv.messages.length) =
        mark_messages_as_read_helper conv.messages reader 0
          (min (up_to + 1) conv.messages.length) := by
      apply List.ext_get?
      intro j
      simp only [helper_get?]
      by_cases hj1 : j < min (up_to' + 1) conv.messages.length
      · have hc1 : 0 ≤ j ∧ j < min (up_to' + 1) conv.messages.length :=
          ⟨Nat.zero_le j, hj1⟩
        have hc2 : 0 ≤ j ∧ j < min (up_to + 1) conv.messages.length :=
          ⟨Nat.zero_le j, by omega⟩
        rw [if_pos hc1, if_pos hc2, Option.map_map, markIf_comp]
      · have hc1 : ¬ (0 ≤ j ∧ j < min (up_to' + 1) conv.messages.length) := by
          omega
        rw [if_neg hc1]
    simp [mark_messages_as_read, hpart, hlen', hemin', hms]

/-- A concrete conversation matching the spec's read-marking scenario:
`10` sent the messages at indices 0 and 2, `11` sent those at 1 and 3. -/
def convMsgs : Conversation :=
  { participant1 := 10, participant2 := 11
    messages :=
      [ { sender := 10, encrypted_content_blob_id := "b0", content_hash := [0]
          timestamp_ms := 1, is_read := false, media_blob_id := none }
      , { sender := 11, encrypted_content_blob_id := "b1", content_hash := [1]
          timestamp_ms := 2, is_read := false, media_blob_id := none }
      , { sender := 10, encrypted_content_blob_id := "b2", content_hash := [2]
          timestamp_ms := 3, is_read := false, media_blob_id := none }
      , { sender := 11, encrypted_content_blob_id := "b3", content_hash := [3]
          timestamp_ms := 4, is_read := false, media_blob_id := none } ]
    last_message_timestamp_ms := 4 }

/-- C4 witness: reader `10` marking up to index 3 in the scenario
conversation succeeds with the characterised result and is idempotent. -/
theorem mark_messages_as_read_spec_witness :
    ((10 : Addr) = convMsgs.participant1 ∨
      (10 : Addr) = convMsgs.participant2) ∧
    (∃ conv', mark_messages_as_read convMsgs 10 3 = .ok conv' ∧
      conv'.participant1 = convMsgs.participant1 ∧
      conv'.participant2 = convMsgs.participant2 ∧
      conv'.last_message_timestamp_ms = convMsgs.last_message_timestamp_ms ∧
      conv'.messages.length = convMsgs.messages.length ∧
      (∀ j m, convMsgs.messages.get? j = some m →
        conv'.messages.get? j = some
          { m with is_read :=
              if j < min (3 + 1) convMsgs.messages.length ∧ m.sender ≠ 10
              then true else m.is_read }) ∧
      (∀ up_to', up_to' ≤ 3 →
        mark_messages_as_read conv' 10 up_to' = .ok conv')) :=
  ⟨Or.inl (by decide),
    mark_messages_as_read_spec convMsgs 10 3 (Or.inl (by decide))⟩

/-- C2: for distinct identities `A ≠ B` with no existing conversation for
the pair, the first `start_conversation` creates exactly one conversation
under the fresh id and registers it under both orderings; afterwards
`get_conversation_id` returns that same id for either argument order, and
repeating `start_conversation` in either argument order returns early with
no side effect and no new conversation — so at most one conversation ever
exists per unordered pair. -/
theorem start_conversation_find_or_create (reg : Registry) (A B : Addr)
    (freshId freshId' freshId'' : ConvId) (now now' now'' : Nat)
    (hne : A ≠ B) (habsent : conversation_exists reg A B = false) :
    ∃ reg' conv,
      start_conversation reg A B freshId now =
        .ok (reg', some (freshId, conv)) ∧
      conv.participant1 = A ∧ conv.participant2 = B ∧ conv.messages = [] ∧
      get_conversation_id reg' A B = some freshId ∧
      get_conversation_id reg' B A = some freshId ∧
      start_conversation reg' A B freshId' now' = .ok (reg', none) ∧
      start_conversation reg' B A freshId'' now'' = .ok (reg', none) := by
  have hAB : (A == B) = false := by simp [hne]
  have hBA : (B == A) = false := by simp [Ne.symm hne]
  have hborA := tborrow_registerPair_sender reg A B freshId hne
  have hborB := tborrow_registerPair_other reg A B freshId hne
  have hgAB : get_conversation_id (registerPair reg A B freshId) A B =
      some freshId := by
    unfold get_conversation_id get_conversation_id_helper lookupDir
    simp only [hborA, tborrow_tadd_self]
  have hgBA : get_conversation_id (registerPair reg A B freshId) B A =
      some freshId := by
    unfold get_conversation_id get_conversation_id_helper lookupDir
    simp only [hborB, tborrow_tadd_self]
  have hex1 : conversation_exists (registerPair reg A B freshId) A B
      = true := by
    unfold conversation_exists
    simp only [hborA, tcontains_tadd_self, Bool.true_or]
  have hex2 : conversation_exists (registerPair reg A B freshId) B A
      = true := by
    unfold conversation_exists
    simp only [hborB, tcontains_tadd_self, Bool.true_or]
  refine ⟨registerPair reg A B freshId, ⟨A, B, [], now⟩,
    start_conversation_create reg A B freshId now hAB habsent,
    rfl, rfl, rfl, hgAB, hgBA, ?_, ?_⟩
  · rw [start_conversation]
    simp only [hAB, Bool.false_eq_true, if_false, hex1, if_true]
  · rw [start_conversation]
    simp only [hBA, Bool.false_eq_true, if_false, hex2, if_true]

/-- C2 witness: in the empty registry, identities `0` and `1` get one
conversation with id `42`; both lookups find it and both repeat calls are
side-effect-free. -/
theorem start_conversation_find_or_create_witness :
    ((0 : Addr) ≠ (1 : Addr)) ∧
    conversation_exists [] 0 1 = false ∧
    (∃ reg' conv,
      start_conversation [] 0 1 42 5 = .ok (reg', some (42, conv)) ∧
      conv.participant1 = 0 ∧ conv.participant2 = 1 ∧ conv.messages = [] ∧
      get_conversation_id reg' 0 1 = some 42 ∧
      get_conversation_id reg' 1 0 = some 42 ∧
      start_conversation reg' 0 1 43 6 = .ok (reg', none) ∧
      start_conversation reg' 1 0 44 7 = .ok (reg', none)) :=
  ⟨by decide, by decide,
    start_conversation_find_or_create [] 0 1 42 43 44 5 6 7
      (by decide) (by decide)⟩

/-- C7: `createConversationIdentity` is deterministic and
participant-order-independent: for every conversation id and participants
`A`, `B`, deriving with `[A, B]` and with `[B, A]` yields byte-identical
identity tokens. -/
theorem createConversationIdentity_order_independent (env : SealEnv)
    (conversationId A B : String) :
    createConversationIdentity env conversationId [A, B] =
      createConversationIdentity env conversationId [B, A] := by
  unfold createConversationIdentity
  rw [sortStrings_pair]

/-- C3: composing `encryptAndUploadMessage` and `decryptMessage` with the
same conversation id and participants is the identity on plaintexts,
assuming the blob store returns the stored bytes, the decryption backend
inverts the encryption backend under the (valid) session authorization, and
text decoding inverts text encoding. -/
theorem encrypt_decrypt_round_trip (env : SealEnv)
    (p conversationId : String) (participants : List String)
    (sk : SessionKey) (tx : Bytes)
    (hstore : env.walrusDownload (env.walrusUpload
      (env.sealEncrypt 2 PACKAGE_ID
        (createConversationIdentity env conversationId participants)
        (env.textEncode p))) =
      some (env.sealEncrypt 2 PACKAGE_ID
        (createConversationIdentity env conversationId participants)
        (env.textEncode p)))
    (hdec : env.sealDecrypt
      (env.sealEncrypt 2 PACKAGE_ID
        (createConversationIdentity env conversationId participants)
        (env.textEncode p)) sk tx = some (env.textEncode p))
    (hcodec : env.textDecode (env.textEncode p) = p) :
    decryptMessage env
      (encryptAndUploadMessage env p conversationId participants).1
      conversationId participants (some sk) (some tx) = .ok p := by
  unfold encryptAndUploadMessage decryptMessage
  simp only [hstore, Option.getD_some, hdec, hcodec]

/-- Trivial instantiation of the external collaborators for which the
round-trip hypotheses hold at the empty plaintext. -/
def idEnv : SealEnv :=
  { hashDigest := fun _ => [0]
    textEncode := fun _ => []
    textDecode := fun _ => ""
    sealEncrypt := fun _ _ _ d => d
    sealDecrypt := fun d _ _ => some d
    walrusUpload := fun _ => "walrus-blob"
    walrusDownload := fun _ => some [] }

/-- C3 witness: with `idEnv`, storing and fetching the plaintext `""` in
conversation `"c"` returns it unchanged. -/
theorem encrypt_decrypt_round_trip_witness :
    (idEnv.walrusDownload (idEnv.walrusUpload
      (idEnv.sealEncrypt 2 PACKAGE_ID
        (createConversationIdentity idEnv "c" [])
        (idEnv.textEncode ""))) =
      some (idEnv.sealEncrypt 2 PACKAGE_ID
        (createConversationIdentity idEnv "c" [])
        (idEnv.textEncode ""))) ∧
    (idEnv.sealDecrypt
      (idEnv.sealEncrypt 2 PACKAGE_ID
        (createConversationIdentity idEnv "c" [])
        (idEnv.textEncode "")) ⟨"pkg", "id"⟩ [] =
      some (idEnv.textEncode "")) ∧
    (idEnv.textDecode (idEnv.textEncode "") = "") ∧
    decryptMessage idEnv
      (encryptAndUploadMessage idEnv "" "c" []).1 "c" []
      (some ⟨"pkg", "id"⟩) (some []) = .ok "" :=
  ⟨rfl, rfl, rfl,
    encrypt_decrypt_round_trip idEnv "" "c" [] ⟨"pkg", "id"⟩ []
      rfl rfl rfl⟩

/-- External collaborators under which decryption succeeds but the decrypted
plaintext does not match the on-chain digest. -/
def cexEnv : SealEnv :=
  { hashDigest := fun _ => [0]
    textEncode := fun _ => []
    textDecode := fun _ => "tampered"
    sealEncrypt := fun _ _ _ d => d
    sealDecrypt := fun d _ _ => some d
    walrusUpload := fun _ => "walrus-blob"
    walrusDownload := fun _ => some [5] }

/-- C1 counterexample: at a concrete blob, conversation and expected digest,
`decryptMessage` succeeds and hands the plaintext `"tampered"` to the caller
even though `verifyMessageHash` rejects that plaintext against the expected
digest `[1]` — so `decryptMessage` does not fail closed on an integrity
mismatch, contradicting the claim that plaintext is returned only when
digest verification succeeds. -/
theorem decryptMessage_no_integrity_check_cex :
    decryptMessage cexEnv "walrus-blob" "conv" [] none none =
      .ok "tampered" ∧
    verifyMessageHash cexEnv "tampered" [1] = false := by
  exact ⟨rfl, rfl⟩

/-- C1 (amended): `decryptMessage` performs no digest verification at all —
it has no expected-digest argument, and whenever the Walrus download and the
Seal decryption succeed it returns the decoded plaintext to the caller, even
when `verifyMessageHash` fails on that plaintext for the digest stored with
the message; integrity checking is a separate, caller-invoked step
(`verifyMessageHash`), which returns `false` on a mismatch. -/
theorem decryptMessage_returns_unverified_plaintext (env : SealEnv)
    (blobId conversationId : String) (participants : List String)
    (sk : SessionKey) (tx : Bytes) (cipher plain expectedDigest : Bytes)
    (hdl : env.walrusDownload blobId = some cipher)
    (hdec : env.sealDecrypt cipher sk tx = some plain)
    (hfail : verifyMessageHash env (env.textDecode plain) expectedDigest
      = false) :
    decryptMessage env blobId conversationId participants
      (some sk) (some tx) = .ok (env.textDecode plain) := by
  unfold decryptMessage
  simp only [hdl, Option.getD_some, hdec]

/-- C1 witness: the amended theorem instantiated at `cexEnv`, where the
decrypted plaintext `"tampered"` fails verification against digest `[1]`
yet is still returned. -/
theorem decryptMessage_returns_unverified_plaintext_witness :
    (cexEnv.walrusDownload "walrus-blob" = some [5]) ∧
    (cexEnv.sealDecrypt [5] ⟨"pkg", "id"⟩ [] = some [5]) ∧
    (verifyMessageHash cexEnv (cexEnv.textDecode [5]) [1] = false) ∧
    decryptMessage cexEnv "walrus-blob" "conv" []
      (some ⟨"pkg", "id"⟩) (some []) = .ok (cexEnv.textDecode [5]) :=
  ⟨rfl, rfl, rfl,
    decryptMessage_returns_unverified_plaintext cexEnv "walrus-blob" "conv"
      [] ⟨"pkg", "id"⟩ [] [5] [5] [1] rfl rfl rfl⟩

end Suitter
